import Mathlib

/-!
# Verification of the short-form video backend core

Shallow embedding, in Lean 4, of the core subsystems of the repository
`project-shortform/backend-ai`:

* the task queue / worker (`src/task_queue.py`),
* the scene-resolution and video-selection algorithm
  (`src/routers/edit.py`: `is_vertical_video`, `select_video_with_options`,
  `edit_video_flexible`, `_async_edit_video_mixed`),
* the composition engine (`src/lib/edit.py`: `create_composite_video`,
  `kill_ffmpeg_processes`, the duration reconciliation and the
  resource-cleanup `finally` phase).

External effects (the Chroma search backend, the filesystem, `moviepy`
clip loading, TTS, the process table) are modelled as explicit
environment records of pure functions, so every embedded operation is an
executable Lean function.
-/

namespace Backend

/-! ## Task queue (`src/task_queue.py`) -/

/-- The four task states of `TaskStatus` in `task_queue.py`. -/
inductive TaskStatus
  | pending
  | processing
  | completed
  | failed
deriving DecidableEq, Repr

/-- The error payload stored by the worker on failure:
`{"message": str(e), "traceback": traceback.format_exc()}`. -/
structure TaskErr where
  message : String
  traceback : String
deriving DecidableEq, Repr

/-- One entry of `TaskQueue.tasks`.  The stored closure `func` is modelled by
its outcome when executed: `Except.ok r` for a normal return with value `r`,
`Except.error e` for a raised exception carrying message and traceback. -/
structure TaskRec (Res : Type) where
  tstatus : TaskStatus
  created_at : Nat
  started_at : Option Nat
  completed_at : Option Nat
  progress : Nat
  result : Option Res
  error : Option TaskErr
  func : Except TaskErr Res
deriving Repr

/-- The in-memory task map `TaskQueue.tasks`, as an association list keyed by
task id. -/
def TaskMap (Res : Type) : Type := List (String × TaskRec Res)

/-- Replace the record stored under `task_id` (the worker mutates the record
in place under `self._lock`). -/
def updateTask {Res : Type} : TaskMap Res → String → TaskRec Res → TaskMap Res
  | [], _, _ => []
  | (k, v) :: rest, task_id, t =>
    if k = task_id then (task_id, t) :: updateTask rest task_id t
    else (k, v) :: updateTask rest task_id t

/-- Look up a task id in the map (`task_id not in self.tasks` check and
`self.tasks[task_id]`). -/
def lookupTask {Res : Type} (tasks : TaskMap Res) (task_id : String) :
    Option (TaskRec Res) :=
  tasks.lookup task_id

/-- One iteration of `TaskQueue._worker` after a task id has been popped from
the FIFO (lines 140-180 of `task_queue.py`):

* if the id is no longer in `self.tasks`, `continue` — state unchanged and
  the function is not executed (second component `none`);
* otherwise mark the task `processing`, stamp `started_at`, execute the
  stored function, and convert its outcome into exactly one terminal state:
  `completed` (result stored, `progress = 100`) or `failed`
  (`{message, traceback}` stored); both stamp `completed_at`.

The Python `try/except Exception` around the call is what makes this a total
function: an exception raised by the task function is materialised as
`Except.error` and recorded, never re-raised. -/
def workerStep {Res : Type} (tasks : TaskMap Res) (task_id : String)
    (now : Nat) : TaskMap Res × Option (Except TaskErr Res) :=
  match lookupTask tasks task_id with
  | none => (tasks, none)
  | some t =>
    let t1 : TaskRec Res :=
      { t with tstatus := .processing, started_at := some now, progress := 0 }
    match t1.func with
    | .ok r =>
        (updateTask tasks task_id
          { t1 with tstatus := .completed, completed_at := some now,
                    progress := 100, result := some r },
         some (.ok r))
    | .error e =>
        (updateTask tasks task_id
          { t1 with tstatus := .failed, completed_at := some now,
                    error := some e },
         some (.error e))

/-- The worker loop over a sequence of dequeued task ids: each iteration is a
`workerStep`, and the loop always proceeds to the next id (the worker thread
survives every task outcome). -/
def workerRun {Res : Type} (tasks : TaskMap Res) (ids : List String)
    (now : Nat) : TaskMap Res :=
  ids.foldl (fun ts id => (workerStep ts id now).1) tasks

theorem lookup_updateTask {Res : Type} (tasks : TaskMap Res) (task_id : String)
    (t0 t : TaskRec Res) (h : lookupTask tasks task_id = some t0) :
    lookupTask (updateTask tasks task_id t) task_id = some t := by
  induction tasks with
  | nil => simp [lookupTask, List.lookup] at h
  | cons p rest ih =>
    obtain ⟨k, v⟩ := p
    by_cases hp : k = task_id
    · subst hp
      simp [lookupTask, updateTask, List.lookup]
    · have hbeq : (task_id == k) = false := by
        simp only [beq_eq_false_iff_ne, ne_eq]
        intro he; exact hp he.symm
      simp only [lookupTask, updateTask, if_neg hp, List.lookup, hbeq] at h ⊢
      exact ih h

/-- Evaluation of `workerStep` on a found task whose function returns
normally. -/
theorem workerStep_found_ok {Res : Type} (tasks : TaskMap Res)
    (task_id : String) (now : Nat) (t : TaskRec Res) (r : Res)
    (h : lookupTask tasks task_id = some t) (hf : t.func = .ok r) :
    workerStep tasks task_id now =
      (updateTask tasks task_id
        { t with tstatus := .completed, started_at := some now,
                 completed_at := some now, progress := 100, result := some r },
       some (.ok r)) := by
  simp [workerStep, h, hf]

/-- Evaluation of `workerStep` on a found task whose function raises. -/
theorem workerStep_found_error {Res : Type} (tasks : TaskMap Res)
    (task_id : String) (now : Nat) (t : TaskRec Res) (e : TaskErr)
    (h : lookupTask tasks task_id = some t) (hf : t.func = .error e) :
    workerStep tasks task_id now =
      (updateTask tasks task_id
        { t with tstatus := .failed, started_at := some now, progress := 0,
                 completed_at := some now, error := some e },
       some (.error e)) := by
  simp [workerStep, h, hf]

/-- **C6**: for every task the worker dequeues and finds in the task map,
execution ends in exactly one terminal state: on normal return the task
becomes `completed` with `completed_at` stamped, `progress = 100` and the
result stored; on an exception raised by the task function the task becomes
`failed` with `completed_at` stamped and `{message, traceback}` stored.  The
exception never propagates out of the worker loop: `workerStep` is total and
the loop proceeds to the next dequeued id. -/
theorem c6_worker_terminal_state {Res : Type} (tasks : TaskMap Res)
    (task_id : String) (now : Nat) (t : TaskRec Res)
    (h : lookupTask tasks task_id = some t) :
    (workerStep tasks task_id now).2 = some t.func ∧
    (∃ t', lookupTask (workerStep tasks task_id now).1 task_id = some t' ∧
      t'.completed_at = some now ∧ t'.started_at = some now ∧
      ((∃ r, t.func = .ok r ∧ t'.tstatus = .completed ∧ t'.progress = 100 ∧
          t'.result = some r) ∨
       (∃ e, t.func = .error e ∧ t'.tstatus = .failed ∧ t'.error = some e))) ∧
    (∀ ids, workerRun tasks (task_id :: ids) now =
      workerRun (workerStep tasks task_id now).1 ids now) := by
  cases hf : t.func with
  | ok r =>
    refine ⟨?_, ?_, fun ids => rfl⟩
    · rw [workerStep_found_ok tasks task_id now t r h hf]
    · rw [workerStep_found_ok tasks task_id now t r h hf]
      exact ⟨_, lookup_updateTask tasks task_id t _ h, rfl, rfl,
        .inl ⟨r, rfl, rfl, rfl, rfl⟩⟩
  | error e =>
    refine ⟨?_, ?_, fun ids => rfl⟩
    · rw [workerStep_found_error tasks task_id now t e h hf]
    · rw [workerStep_found_error tasks task_id now t e h hf]
      exact ⟨_, lookup_updateTask tasks task_id t _ h, rfl, rfl,
        .inr ⟨e, rfl, rfl, rfl⟩⟩

/-- **C9**: if a task id popped from the FIFO is no longer present in the
in-memory task map (for example a pending task deleted by `delete_task`
before the worker reached it), the worker silently discards that queue entry:
the task map is unchanged (so no task transitions to `processing`) and the
stored function is never executed (second component `none`). -/
theorem c9_missing_task_discarded {Res : Type} (tasks : TaskMap Res)
    (task_id : String) (now : Nat) (h : lookupTask tasks task_id = none) :
    workerStep tasks task_id now = (tasks, none) := by
  simp [workerStep, h]

/-- A task whose stored function returns normally with value `7`. -/
def taskOk : TaskRec Nat :=
  { tstatus := .pending, created_at := 0, started_at := none,
    completed_at := none, progress := 0, result := none, error := none,
    func := .ok 7 }

/-- A task whose stored function raises an exception. -/
def taskBad : TaskRec Nat :=
  { tstatus := .pending, created_at := 0, started_at := none,
    completed_at := none, progress := 0, result := none, error := none,
    func := .error ⟨"boom", "tb"⟩ }

/-- A concrete two-entry task map. -/
def tasksDemo : TaskMap Nat := [("a", taskOk), ("b", taskBad)]

theorem c6_worker_terminal_state_witness :
    (workerStep tasksDemo "a" 5).2 = some taskOk.func ∧
    (workerStep tasksDemo "b" 5).2 = some taskBad.func ∧
    workerRun tasksDemo ["a", "b"] 5 =
      workerRun (workerStep tasksDemo "a" 5).1 ["b"] 5 := by
  have ha := c6_worker_terminal_state tasksDemo "a" 5 taskOk rfl
  have hb := c6_worker_terminal_state tasksDemo "b" 5 taskBad rfl
  exact ⟨ha.1, hb.1, ha.2.2 ["b"]⟩

theorem c9_missing_task_discarded_witness :
    workerStep tasksDemo "ghost" 5 = (tasksDemo, none) :=
  c9_missing_task_discarded tasksDemo "ghost" 5 rfl

/-! ## Scene resolution (`src/routers/edit.py`) -/

/-- One ranked search hit, i.e. one entry of
`search_result["metadatas"][0]`: a metadata dict whose `file_name` key may be
absent (`metadata.get("file_name")` returning `None` is modelled as `none`). -/
structure Candidate where
  file_name : Option String
deriving DecidableEq, Repr

/-- The external collaborators of the scene resolver, as pure functions:

* `search` — `search_chroma(script, n_results)`, returning the ranked
  candidate list (empty list models an empty search result);
* `fileExists` — `os.path.exists`;
* `dims` — opening a video with `VideoFileClip` and reading `clip.size`
  as `(width, height)`; `none` models any exception while doing so;
* `tts` — `generate_typecast_tts_audio(subtitle, actor_name)`, returning the
  audio file path. -/
structure Env where
  search : String → Nat → List Candidate
  fileExists : String → Bool
  dims : String → Option (Nat × Nat)
  tts : String → String → String

/-- `f"uploads/{file_name}"`. -/
def uploadsPath (file_name : String) : String := "uploads/" ++ file_name

/-- `is_vertical_video` (routers/edit.py lines 98-106): `height > width`
when the clip opens, `False` on any exception. -/
def is_vertical_video (env : Env) (video_path : String) : Bool :=
  match env.dims video_path with
  | some wh => decide (wh.2 > wh.1)
  | none => false

/-- The two `HTTPException` failures of `select_video_with_options`: empty
search result (line 136) and no candidate surviving the checks (line 163). -/
inductive SelectError
  | notFound
  | noEligible
deriving DecidableEq, Repr

/-- The candidate loop of `select_video_with_options` (lines 139-166):
skip a candidate without `file_name`, skip a duplicate (when
`avoid_duplicates`), skip a missing file, skip a vertical video (when
`filter_vertical`); return the first candidate passing all checks. -/
def selectLoop (env : Env) (used_videos : List String)
    (avoid_duplicates filter_vertical : Bool) :
    List Candidate → Except SelectError (String × Candidate)
  | [] => .error .noEligible
  | c :: rest =>
    match c.file_name with
    | none => selectLoop env used_videos avoid_duplicates filter_vertical rest
    | some file_name =>
      if avoid_duplicates && decide (file_name ∈ used_videos) then
        selectLoop env used_videos avoid_duplicates filter_vertical rest
      else if !env.fileExists (uploadsPath file_name) then
        selectLoop env used_videos avoid_duplicates filter_vertical rest
      else if filter_vertical && is_vertical_video env (uploadsPath file_name) then
        selectLoop env used_videos avoid_duplicates filter_vertical rest
      else
        .ok (file_name, c)

/-- `select_video_with_options` (lines 108-166). -/
def select_video_with_options (env : Env) (script : String)
    (used_videos : List String) (avoid_duplicates filter_vertical : Bool)
    (max_search_results : Nat) : Except SelectError (String × Candidate) :=
  let cands := env.search script max_search_results
  if cands.isEmpty then .error .notFound
  else selectLoop env used_videos avoid_duplicates filter_vertical cands

/-- A candidate passes all applicable checks of the selection loop:
`file_name` present, not a duplicate (when `avoid_duplicates`), the file
exists, and not vertical (when `filter_vertical`). -/
def eligible (env : Env) (used_videos : List String)
    (avoid_duplicates filter_vertical : Bool) (c : Candidate) : Bool :=
  match c.file_name with
  | none => false
  | some file_name =>
    !(avoid_duplicates && decide (file_name ∈ used_videos)) &&
    env.fileExists (uploadsPath file_name) &&
    !(filter_vertical && is_vertical_video env (uploadsPath file_name))

/-- The `selection_method` values recorded by the handlers. -/
inductive SelectionMethod
  | direct_file
  | script_search
  | keyword_search
deriving DecidableEq, Repr

/-- The per-scene failure reasons raised inside the handlers' `try` blocks. -/
inductive SceneError
  | fileNotFound (file_name : String)
  | duplicateVideo
  | verticalVideo
  | searchFailed (e : SelectError)
  | invalidSelection
deriving DecidableEq, Repr

/-- A scene dict as consumed by `edit_video_flexible` and
`_async_edit_video_mixed`: the three optional selection fields, subtitle and
actor.  `none` models an absent or `None`-valued key. -/
structure FlexScene where
  scene : Nat
  subtitle : String
  video_file_name : Option String := none
  script : Option String := none
  search_keywords : Option (List String) := none
  actor_name : String := "현주"
deriving DecidableEq, Repr

/-- Python truthiness of `scene.get(key)` for a string field: present and
non-empty. -/
def truthyStr : Option String → Bool
  | some s => !s.isEmpty
  | none => false

/-- Python truthiness of `scene.get("search_keywords")`: present and
non-empty. -/
def truthyList : Option (List String) → Bool
  | some l => !l.isEmpty
  | none => false

/-- Scene resolution of `edit_video_flexible` (lines 1466-1507): direct file
name first, else script search, else keyword search (keywords joined with
spaces), else the invalid-selection error.  The attempted selection method is
carried on both outcomes (on failure it is what `selection_method` had been
set to when the exception was raised). -/
def resolveFlexScene (env : Env) (avoid_duplicates filter_vertical : Bool)
    (max_search_results : Nat) (used_videos : List String) (s : FlexScene) :
    Except (Option SelectionMethod × SceneError) (SelectionMethod × String) :=
  if truthyStr s.video_file_name then
    let file_name := s.video_file_name.getD ""
    if !env.fileExists (uploadsPath file_name) then
      .error (some .direct_file, .fileNotFound file_name)
    else if avoid_duplicates && decide (file_name ∈ used_videos) then
      .error (some .direct_file, .duplicateVideo)
    else if filter_vertical && is_vertical_video env (uploadsPath file_name) then
      .error (some .direct_file, .verticalVideo)
    else .ok (.direct_file, file_name)
  else if truthyStr s.script then
    match select_video_with_options env (s.script.getD "") used_videos
        avoid_duplicates filter_vertical max_search_results with
    | .ok (file_name, _) => .ok (.script_search, file_name)
    | .error e => .error (some .script_search, .searchFailed e)
  else if truthyList s.search_keywords then
    match select_video_with_options env
        (String.intercalate " " (s.search_keywords.getD [])) used_videos
        avoid_duplicates filter_vertical max_search_results with
    | .ok (file_name, _) => .ok (.keyword_search, file_name)
    | .error e => .error (some .keyword_search, .searchFailed e)
  else .error (none, .invalidSelection)

/-- Scene resolution of `_async_edit_video_mixed` (lines 308-345): direct
file name first, else **keyword** search, else **script** search — note the
order of the two search branches, which differs from `edit_video_flexible`. -/
def resolveMixedScene (env : Env) (avoid_duplicates filter_vertical : Bool)
    (max_search_results : Nat) (used_videos : List String) (s : FlexScene) :
    Except (Option SelectionMethod × SceneError) (SelectionMethod × String) :=
  if truthyStr s.video_file_name then
    let file_name := s.video_file_name.getD ""
    if !env.fileExists (uploadsPath file_name) then
      .error (some .direct_file, .fileNotFound file_name)
    else if avoid_duplicates && decide (file_name ∈ used_videos) then
      .error (some .direct_file, .duplicateVideo)
    else if filter_vertical && is_vertical_video env (uploadsPath file_name) then
      .error (some .direct_file, .verticalVideo)
    else .ok (.direct_file, file_name)
  else if truthyList s.search_keywords then
    match select_video_with_options env
        (String.intercalate " " (s.search_keywords.getD [])) used_videos
        avoid_duplicates filter_vertical max_search_results with
    | .ok (file_name, _) => .ok (.keyword_search, file_name)
    | .error e => .error (some .keyword_search, .searchFailed e)
  else if truthyStr s.script then
    match select_video_with_options env (s.script.getD "") used_videos
        avoid_duplicates filter_vertical max_search_results with
    | .ok (file_name, _) => .ok (.script_search, file_name)
    | .error e => .error (some .script_search, .searchFailed e)
  else .error (none, .invalidSelection)

/-- The selection method a resolution outcome attempted, whether it
succeeded or failed. -/
def attemptedMethod :
    Except (Option SelectionMethod × SceneError) (SelectionMethod × String) →
      Option SelectionMethod
  | .ok (m, _) => some m
  | .error (m, _) => m

/-- The selection-mode priority of the flexible handler, written from the
spec's words: direct file name first, else script search, else keyword
search, else no mode. -/
def flexPriority (s : FlexScene) : Option SelectionMethod :=
  if truthyStr s.video_file_name then some .direct_file
  else if truthyStr s.script then some .script_search
  else if truthyList s.search_keywords then some .keyword_search
  else none

/-- The selection-mode priority actually applied by the mixed handler:
direct file name first, else keyword search, else script search. -/
def mixedPriority (s : FlexScene) : Option SelectionMethod :=
  if truthyStr s.video_file_name then some .direct_file
  else if truthyList s.search_keywords then some .keyword_search
  else if truthyStr s.script then some .script_search
  else none

/-- One entry appended to `video_infos` by the handlers' scene loops. -/
structure ResolvedSceneInfo where
  file_name : String
  audio_path : String
  text : String
  scene : Nat
  selection_method : SelectionMethod
deriving DecidableEq, Repr

/-- One entry appended to `skipped_scenes` when `skip_unresolved` is set:
scene index, failure reason and the selection method attempted. -/
structure SkipEntry where
  scene : Nat
  reason : SceneError
  selection_method : Option SelectionMethod
deriving DecidableEq, Repr

/-- The three accumulators threaded through a handler's scene loop. -/
structure LoopState where
  video_infos : List ResolvedSceneInfo
  used_videos : List String
  skipped_scenes : List SkipEntry
deriving DecidableEq, Repr

/-- `video_infos = []`, `used_videos = set()`, `skipped_scenes = []`. -/
def initLoopState : LoopState := ⟨[], [], []⟩

/-- The human-readable reason attached to a scene failure (`str(e)`). -/
def sceneErrorText : SceneError → String
  | .fileNotFound n => "file " ++ n ++ " not found"
  | .duplicateVideo => "duplicate video"
  | .verticalVideo => "vertical video"
  | .searchFailed .notFound => "no matching video found"
  | .searchFailed .noEligible => "no eligible video found"
  | .invalidSelection => "no valid selection method provided"

/-- The per-scene error message raised when `skip_unresolved` is off:
`f"Scene {scene}: {str(e)}"`. -/
def sceneFailMsg (scene : Nat) (e : SceneError) : String :=
  "Scene " ++ toString scene ++ ": " ++ sceneErrorText e

/-- The type of a per-scene resolver (`resolveFlexScene env ...` or
`resolveMixedScene env ...` with the options applied). -/
def Resolver : Type :=
  List String → FlexScene →
    Except (Option SelectionMethod × SceneError) (SelectionMethod × String)

/-- The common scene loop of `edit_video_flexible` (lines 1461-1541) and
`_async_edit_video_mixed` (lines 303-377), parameterised by the per-scene
resolver (the only part in which the two loops differ).  On success the file
name is added to `used_videos` when `avoid_duplicates` is set, TTS is run on
the subtitle, and the resolved scene is appended to `video_infos`.  On
failure the scene is appended to `skipped_scenes` and the loop continues when
`skip_unresolved` is set, else the whole job fails with the per-scene
message. -/
def sceneLoop (res : Resolver) (tts : String → String → String)
    (avoid_duplicates skip_unresolved : Bool) :
    List FlexScene → LoopState → Except String LoopState
  | [], st => .ok st
  | s :: rest, st =>
    match res st.used_videos s with
    | .ok (m, file_name) =>
      sceneLoop res tts avoid_duplicates skip_unresolved rest
        { video_infos := st.video_infos ++
            [⟨file_name, tts s.subtitle s.actor_name, s.subtitle, s.scene, m⟩],
          used_videos :=
            if avoid_duplicates then st.used_videos ++ [file_name]
            else st.used_videos,
          skipped_scenes := st.skipped_scenes }
    | .error (m, e) =>
      if skip_unresolved then
        sceneLoop res tts avoid_duplicates skip_unresolved rest
          { st with skipped_scenes := st.skipped_scenes ++ [⟨s.scene, e, m⟩] }
      else .error (sceneFailMsg s.scene e)

/-- The resolved-scene output of a handler run.  The composition call
(`create_composite_video`) and the database write that follow the loop are
modelled separately (see the composition-engine section); what the handler
hands to them, and returns, is this resolved-scene list together with
`videos_used` and `skipped_scenes` exactly as the route response builds
them. -/
structure JobOutput where
  video_infos : List ResolvedSceneInfo
  videos_used : Option (List String)
  skipped_scenes : Option (List SkipEntry)
deriving DecidableEq, Repr

/-- The common tail of both handlers: run the scene loop from the empty
state; fail when no scene survived (`if not video_infos: raise`); otherwise
build the job output (`videos_used` only under `avoid_duplicates`,
`skipped_scenes if skipped_scenes else None`). -/
def runJob (res : Resolver) (tts : String → String → String)
    (avoid_duplicates skip_unresolved : Bool) (scenes : List FlexScene) :
    Except String JobOutput :=
  match sceneLoop res tts avoid_duplicates skip_unresolved scenes initLoopState with
  | .error e => .error e
  | .ok st =>
    if st.video_infos.isEmpty then .error "no processable videos"
    else .ok
      { video_infos := st.video_infos,
        videos_used := if avoid_duplicates then some st.used_videos else none,
        skipped_scenes :=
          if st.skipped_scenes.isEmpty then none else some st.skipped_scenes }

/-- `edit_video_flexible` (lines 1432-1570), up to and including the
resolved-scene list handed to composition. -/
def edit_video_flexible (env : Env) (avoid_duplicates filter_vertical : Bool)
    (max_search_results : Nat) (skip_unresolved : Bool)
    (scenes : List FlexScene) : Except String JobOutput :=
  runJob
    (resolveFlexScene env avoid_duplicates filter_vertical max_search_results)
    env.tts avoid_duplicates skip_unresolved scenes

/-- `_async_edit_video_mixed` (lines 278-439), up to and including the
resolved-scene list handed to composition. -/
def async_edit_video_mixed (env : Env) (avoid_duplicates filter_vertical : Bool)
    (max_search_results : Nat) (skip_unresolved : Bool)
    (scenes : List FlexScene) : Except String JobOutput :=
  runJob
    (resolveMixedScene env avoid_duplicates filter_vertical max_search_results)
    env.tts avoid_duplicates skip_unresolved scenes

/-! ## The selection loop visits candidates in ranked order -/

theorem selectLoop_eq_find? (env : Env) (used_videos : List String)
    (a f : Bool) (cands : List Candidate) :
    selectLoop env used_videos a f cands =
      match cands.find? (eligible env used_videos a f) with
      | some c => .ok (c.file_name.getD "", c)
      | none => .error .noEligible := by
  induction cands with
  | nil => rfl
  | cons c rest ih =>
    cases hfn : c.file_name with
    | none =>
      have he : eligible env used_videos a f c = false := by
        simp [eligible, hfn]
      rw [List.find?_cons_of_neg _ (by simp [he])]
      simpa [selectLoop, hfn] using ih
    | some file_name =>
      by_cases h1 : (a && decide (file_name ∈ used_videos)) = true
      · have he : eligible env used_videos a f c = false := by
          simp [eligible, hfn, h1]
        rw [List.find?_cons_of_neg _ (by simp [he])]
        simpa [selectLoop, hfn, h1] using ih
      · by_cases h2 : env.fileExists (uploadsPath file_name) = true
        · by_cases h3 :
              (f && is_vertical_video env (uploadsPath file_name)) = true
          · have he : eligible env used_videos a f c = false := by
              simp [eligible, hfn, h3]
            rw [List.find?_cons_of_neg _ (by simp [he])]
            simpa [selectLoop, hfn, h1, h2, h3] using ih
          · have he : eligible env used_videos a f c = true := by
              simp only [eligible, hfn]
              simp [h1, h2, h3]
            rw [List.find?_cons_of_pos _ (by simp [he])]
            simp [selectLoop, hfn, h1, h2, h3]
        · have he : eligible env used_videos a f c = false := by
            simp [eligible, hfn, h2]
          rw [List.find?_cons_of_neg _ (by simp [he])]
          simpa [selectLoop, hfn, h1, h2] using ih

/-- **C7**: search-based resolution examines the ranked candidate list in
order: when the first candidate passing the applicable checks (existence,
duplicate, portrait) is `c`, the resolution returns exactly `c`'s file name
and metadata; when no candidate in a non-empty result list passes, it fails
with the no-eligible-asset error. -/
theorem c7_first_eligible_candidate (env : Env) (script : String)
    (used_videos : List String) (avoid_duplicates filter_vertical : Bool)
    (max_search_results : Nat)
    (h : env.search script max_search_results ≠ []) :
    (∀ c, (env.search script max_search_results).find?
        (eligible env used_videos avoid_duplicates filter_vertical) = some c →
      ∃ file_name, c.file_name = some file_name ∧
        select_video_with_options env script used_videos avoid_duplicates
          filter_vertical max_search_results = .ok (file_name, c)) ∧
    ((env.search script max_search_results).find?
        (eligible env used_videos avoid_duplicates filter_vertical) = none →
      select_video_with_options env script used_videos avoid_duplicates
        filter_vertical max_search_results = .error .noEligible) := by
  have hne : (env.search script max_search_results).isEmpty = false := by
    simpa [List.isEmpty_iff] using h
  constructor
  · intro c hc
    have he : eligible env used_videos avoid_duplicates filter_vertical c :=
      List.find?_some hc
    cases hfn : c.file_name with
    | none => simp [eligible, hfn] at he
    | some file_name =>
      refine ⟨file_name, rfl, ?_⟩
      rw [select_video_with_options, hne]
      simp only [Bool.false_eq_true, if_false]
      rw [selectLoop_eq_find?, hc]
      simp [hfn]
  · intro hc
    rw [select_video_with_options, hne]
    simp only [Bool.false_eq_true, if_false]
    rw [selectLoop_eq_find?, hc]

/-- A ranked search result exercising every rejection branch: a metadata
entry without file name, a duplicate, a missing file, a portrait video, and
finally an eligible one. -/
def demoCands : List Candidate :=
  [⟨none⟩, ⟨some "used.mp4"⟩, ⟨some "missing.mp4"⟩, ⟨some "tall.mp4"⟩,
   ⟨some "good.mp4"⟩]

/-- A concrete environment: every query returns `demoCands`; every file
except `uploads/missing.mp4` exists; `uploads/tall.mp4` is portrait,
`uploads/unreadable.mp4` fails to open, everything else is 1920×1080. -/
def demoEnv : Env :=
  { search := fun _ _ => demoCands,
    fileExists := fun p => p != uploadsPath "missing.mp4",
    dims := fun p =>
      if p = uploadsPath "tall.mp4" then some (720, 1280)
      else if p = uploadsPath "unreadable.mp4" then none
      else some (1920, 1080),
    tts := fun subtitle _ => subtitle ++ ".mp3" }

theorem c7_first_eligible_candidate_witness :
    select_video_with_options demoEnv "query" ["used.mp4"] true true 10 =
      .ok ("good.mp4", ⟨some "good.mp4"⟩) := by
  obtain ⟨file_name, hfn, hsel⟩ :=
    (c7_first_eligible_candidate demoEnv "query" ["used.mp4"] true true 10
      (by decide)).1 ⟨some "good.mp4"⟩ (by decide)
  obtain rfl : "good.mp4" = file_name := by simpa using hfn
  exact hsel

/-- **C10**: the portrait probe `is_vertical_video` returns `false` whenever
the video cannot be opened or its size read (`env.dims = none`); hence, under
`filter_vertical = true`, a candidate whose dimensions are unreadable is
never rejected by the portrait check — its eligibility is the same as with
the portrait filter disabled. -/
theorem c10_unreadable_treated_as_landscape (env : Env) (video_path : String)
    (h : env.dims video_path = none) :
    is_vertical_video env video_path = false ∧
    ∀ (used_videos : List String) (avoid_duplicates : Bool) (c : Candidate)
      (file_name : String), c.file_name = some file_name →
      uploadsPath file_name = video_path →
      eligible env used_videos avoid_duplicates true c =
        eligible env used_videos avoid_duplicates false c := by
  have hv : is_vertical_video env video_path = false := by
    simp [is_vertical_video, h]
  refine ⟨hv, ?_⟩
  intro used_videos avoid_duplicates c file_name hfn hup
  simp [eligible, hfn, hup, hv]

theorem c10_unreadable_treated_as_landscape_witness :
    is_vertical_video demoEnv (uploadsPath "unreadable.mp4") = false ∧
    eligible demoEnv ["used.mp4"] true true ⟨some "unreadable.mp4"⟩ =
      eligible demoEnv ["used.mp4"] true false ⟨some "unreadable.mp4"⟩ := by
  have h := c10_unreadable_treated_as_landscape demoEnv
    (uploadsPath "unreadable.mp4") (by decide)
  exact ⟨h.1, h.2 ["used.mp4"] true ⟨some "unreadable.mp4"⟩ "unreadable.mp4"
    rfl rfl⟩

/-! ## C1: selection-mode priority of the two handlers -/

/-- An environment under which the script query and the keyword query match
different assets. -/
def prioEnv : Env :=
  { search := fun q _ =>
      if q = "script query" then [⟨some "s.mp4"⟩] else [⟨some "k.mp4"⟩],
    fileExists := fun _ => true,
    dims := fun _ => some (1920, 1080),
    tts := fun subtitle _ => subtitle ++ ".mp3" }

/-- A scene populating both the script field and the keyword field (and no
direct file name). -/
def bothScene : FlexScene :=
  { scene := 1, subtitle := "sub", script := some "script query",
    search_keywords := some ["kw1", "kw2"] }

/-- **C1, counterexample**: the claim says both handlers resolve a
multi-populated scene by the same fixed priority (file name, then script,
then keywords).  On a scene with both a script and keywords,
`edit_video_flexible` resolves by script search while
`_async_edit_video_mixed` resolves by keyword search: the two paths do not
apply the same priority order. -/
theorem c1_counterexample :
    resolveFlexScene prioEnv false false 10 [] bothScene =
      .ok (.script_search, "s.mp4") ∧
    resolveMixedScene prioEnv false false 10 [] bothScene =
      .ok (.keyword_search, "k.mp4") ∧
    SelectionMethod.keyword_search ≠ SelectionMethod.script_search :=
  ⟨rfl, rfl, by decide⟩

/-- **C1, amended**: each handler applies a fixed priority with the direct
file name first, but the two orders differ: `edit_video_flexible` tries
direct file, then script search, then keyword search, while
`_async_edit_video_mixed` tries direct file, then keyword search, then
script search.  On every scene the attempted selection method equals the
respective priority function. -/
theorem c1_amended_selection_priority (env : Env)
    (avoid_duplicates filter_vertical : Bool) (max_search_results : Nat)
    (used_videos : List String) (s : FlexScene) :
    attemptedMethod (resolveFlexScene env avoid_duplicates filter_vertical
        max_search_results used_videos s) = flexPriority s ∧
    attemptedMethod (resolveMixedScene env avoid_duplicates filter_vertical
        max_search_results used_videos s) = mixedPriority s := by
  constructor
  · rw [resolveFlexScene, flexPriority]
    by_cases h1 : truthyStr s.video_file_name = true
    · simp only [h1, if_true]
      split_ifs <;> rfl
    · simp only [h1, Bool.false_eq_true, if_false]
      by_cases h2 : truthyStr s.script = true
      · simp only [h2, if_true]
        split <;> rfl
      · simp only [h2, Bool.false_eq_true, if_false]
        by_cases h3 : truthyList s.search_keywords = true
        · simp only [h3, if_true]
          split <;> rfl
        · simp only [h3, Bool.false_eq_true, if_false]
          rfl
  · rw [resolveMixedScene, mixedPriority]
    by_cases h1 : truthyStr s.video_file_name = true
    · simp only [h1, if_true]
      split_ifs <;> rfl
    · simp only [h1, Bool.false_eq_true, if_false]
      by_cases h2 : truthyList s.search_keywords = true
      · simp only [h2, if_true]
        split <;> rfl
      · simp only [h2, Bool.false_eq_true, if_false]
        by_cases h3 : truthyStr s.script = true
        · simp only [h3, if_true]
          split <;> rfl
        · simp only [h3, Bool.false_eq_true, if_false]
          rfl

/-! ## C5: the no-duplicate invariant under `avoid_duplicates` -/

/-- A successful selection returns an eligible candidate together with its
file name. -/
theorem selectLoop_ok_eligible (env : Env) (used_videos : List String)
    (a f : Bool) (cands : List Candidate) (file_name : String) (c : Candidate)
    (h : selectLoop env used_videos a f cands = .ok (file_name, c)) :
    eligible env used_videos a f c = true ∧ c.file_name = some file_name := by
  rw [selectLoop_eq_find?] at h
  cases hf : cands.find? (eligible env used_videos a f) with
  | none => rw [hf] at h; exact absurd h (by simp)
  | some c' =>
    rw [hf] at h
    have he : eligible env used_videos a f c' = true := List.find?_some hf
    have hcc : c'.file_name.getD "" = file_name ∧ c' = c := by
      simpa using h
    obtain ⟨hn, rfl⟩ := hcc
    refine ⟨he, ?_⟩
    cases hfn : c'.file_name with
    | none => simp [eligible, hfn] at he
    | some n =>
      rw [hfn, Option.getD_some] at hn
      rw [hn]

/-- Under `avoid_duplicates`, an eligible candidate's file name is not in the
used set. -/
theorem eligible_avoid_not_mem (env : Env) (used_videos : List String)
    (f : Bool) (c : Candidate) (file_name : String)
    (he : eligible env used_videos true f c = true)
    (hfn : c.file_name = some file_name) : file_name ∉ used_videos := by
  simp only [eligible, hfn, Bool.true_and, Bool.and_eq_true,
    Bool.not_eq_eq_eq_not, Bool.not_true] at he
  intro hmem
  rcases he with ⟨⟨hd, _⟩, _⟩
  rw [decide_eq_true hmem] at hd
  cases hd

/-- Under `avoid_duplicates`, both per-scene resolvers only ever return a
file name outside the current used set. -/
theorem resolve_avoid_not_mem (env : Env) (f : Bool) (m : Nat)
    (used_videos : List String) (s : FlexScene) (meth : SelectionMethod)
    (file_name : String)
    (h : resolveFlexScene env true f m used_videos s = .ok (meth, file_name) ∨
         resolveMixedScene env true f m used_videos s = .ok (meth, file_name)) :
    file_name ∉ used_videos := by
  have hsel : ∀ q, select_video_with_options env q used_videos true f m =
        .error .notFound ∨
      ∀ fn c, select_video_with_options env q used_videos true f m =
        .ok (fn, c) → fn ∉ used_videos := by
    intro q
    rw [select_video_with_options]
    by_cases hq : (env.search q m).isEmpty = true
    · simp [hq]
    · right
      intro fn c hok
      simp only [hq, Bool.false_eq_true, if_false] at hok
      obtain ⟨he, hcf⟩ := selectLoop_ok_eligible env used_videos true f _ fn c hok
      exact eligible_avoid_not_mem env used_videos f c fn he hcf
  rcases h with h | h
  · rw [resolveFlexScene] at h
    by_cases h1 : truthyStr s.video_file_name = true
    · rw [if_pos h1] at h
      intro hmem
      simp [decide_eq_true hmem] at h
      split_ifs at h with h2
      all_goals simp_all
    · rw [if_neg (by simpa using h1)] at h
      by_cases h2 : truthyStr s.script = true
      · rw [if_pos h2] at h
        rcases hsel (s.script.getD "") with hnf | hok
        · rw [hnf] at h; simp at h
        · cases hc : select_video_with_options env (s.script.getD "")
              used_videos true f m with
          | error e => rw [hc] at h; simp at h
          | ok p =>
            obtain ⟨fn, c⟩ := p
            rw [hc] at h
            simp only [Except.ok.injEq, Prod.mk.injEq] at h
            obtain ⟨_, rfl⟩ := h
            exact hok _ c hc
      · rw [if_neg (by simpa using h2)] at h
        by_cases h3 : truthyList s.search_keywords = true
        · rw [if_pos h3] at h
          rcases hsel (String.intercalate " " (s.search_keywords.getD []))
              with hnf | hok
          · rw [hnf] at h; simp at h
          · cases hc : select_video_with_options env
                (String.intercalate " " (s.search_keywords.getD []))
                used_videos true f m with
            | error e => rw [hc] at h; simp at h
            | ok p =>
              obtain ⟨fn, c⟩ := p
              rw [hc] at h
              simp only [Except.ok.injEq, Prod.mk.injEq] at h
              obtain ⟨_, rfl⟩ := h
              exact hok _ c hc
        · rw [if_neg (by simpa using h3)] at h
          simp at h
  · rw [resolveMixedScene] at h
    by_cases h1 : truthyStr s.video_file_name = true
    · rw [if_pos h1] at h
      intro hmem
      simp [decide_eq_true hmem] at h
      split_ifs at h with h2
      all_goals simp_all
    · rw [if_neg (by simpa using h1)] at h
      by_cases h2 : truthyList s.search_keywords = true
      · rw [if_pos h2] at h
        rcases hsel (String.intercalate " " (s.search_keywords.getD []))
            with hnf | hok
        · rw [hnf] at h; simp at h
        · cases hc : select_video_with_options env
              (String.intercalate " " (s.search_keywords.getD []))
              used_videos true f m with
          | error e => rw [hc] at h; simp at h
          | ok p =>
            obtain ⟨fn, c⟩ := p
            rw [hc] at h
            simp only [Except.ok.injEq, Prod.mk.injEq] at h
            obtain ⟨_, rfl⟩ := h
            exact hok _ c hc
      · rw [if_neg (by simpa using h2)] at h
        by_cases h3 : truthyStr s.script = true
        · rw [if_pos h3] at h
          rcases hsel (s.script.getD "") with hnf | hok
          · rw [hnf] at h; simp at h
          · cases hc : select_video_with_options env (s.script.getD "")
                used_videos true f m with
            | error e => rw [hc] at h; simp at h
            | ok p =>
              obtain ⟨fn, c⟩ := p
              rw [hc] at h
              simp only [Except.ok.injEq, Prod.mk.injEq] at h
              obtain ⟨_, rfl⟩ := h
              exact hok _ c hc
        · rw [if_neg (by simpa using h3)] at h
          simp at h

/-- The loop invariant behind the no-duplicate property: under
`avoid_duplicates`, the used set always equals the file names of the
resolved scenes so far, and stays duplicate-free, provided the resolver
never returns a used name. -/
theorem sceneLoop_nodup (res : Resolver) (tts : String → String → String)
    (skip_unresolved : Bool)
    (hres : ∀ used s meth file_name, res used s = .ok (meth, file_name) →
      file_name ∉ used) :
    ∀ (scenes : List FlexScene) (st st' : LoopState),
      st.used_videos = st.video_infos.map (·.file_name) →
      st.used_videos.Nodup →
      sceneLoop res tts true skip_unresolved scenes st = .ok st' →
      st'.used_videos = st'.video_infos.map (·.file_name) ∧
        st'.used_videos.Nodup := by
  intro scenes
  induction scenes with
  | nil =>
    intro st st' hmap hnd h
    simp only [sceneLoop, Except.ok.injEq] at h
    exact h ▸ ⟨hmap, hnd⟩
  | cons s rest ih =>
    intro st st' hmap hnd h
    simp only [sceneLoop] at h
    cases hr : res st.used_videos s with
    | ok p =>
      obtain ⟨meth, file_name⟩ := p
      simp only [hr, eq_self_iff_true, if_true] at h
      have hnm : file_name ∉ st.used_videos := hres _ _ _ _ hr
      refine ih _ st' ?_ ?_ h
      · simp [hmap]
      · simp only []
        rw [List.nodup_append]
        refine ⟨hnd, List.nodup_singleton _, fun a ha hb => ?_⟩
        have hab : a = file_name := by simpa using hb
        exact hnm (hab ▸ ha)
    | error p =>
      obtain ⟨meth, e⟩ := p
      simp only [hr] at h
      cases skip_unresolved with
      | true =>
        simp only [eq_self_iff_true, if_true] at h
        exact ih ⟨st.video_infos, st.used_videos,
          st.skipped_scenes ++ [⟨s.scene, e, meth⟩]⟩ st' hmap hnd h
      | false => simp at h

/-- **C5**: with `avoid_duplicates = true`, no asset file name appears twice
in the resolved-scene list of a job's output — on either handler.  Each
successful resolution's file name is appended to the used set, and both
resolvers reject candidates already in that set. -/
theorem c5_no_duplicate_assets (env : Env) (filter_vertical : Bool)
    (max_search_results : Nat) (skip_unresolved : Bool)
    (scenes : List FlexScene) (out : JobOutput) :
    (edit_video_flexible env true filter_vertical max_search_results
        skip_unresolved scenes = .ok out →
      (out.video_infos.map (·.file_name)).Nodup) ∧
    (async_edit_video_mixed env true filter_vertical max_search_results
        skip_unresolved scenes = .ok out →
      (out.video_infos.map (·.file_name)).Nodup) := by
  constructor
  · intro h
    rw [edit_video_flexible, runJob] at h
    cases hl : sceneLoop
        (resolveFlexScene env true filter_vertical max_search_results)
        env.tts true skip_unresolved scenes initLoopState with
    | error e => rw [hl] at h; simp at h
    | ok st =>
      simp only [hl] at h
      have hst := sceneLoop_nodup
        (resolveFlexScene env true filter_vertical max_search_results)
        env.tts skip_unresolved
        (fun used s meth fn hok =>
          resolve_avoid_not_mem env filter_vertical max_search_results
            used s meth fn (.inl hok))
        scenes initLoopState st rfl List.nodup_nil hl
      by_cases hempty : st.video_infos.isEmpty = true
      · rw [if_pos hempty] at h; simp at h
      · rw [if_neg (by simpa using hempty)] at h
        simp only [Except.ok.injEq] at h
        rw [← h]
        exact hst.1 ▸ hst.2
  · intro h
    rw [async_edit_video_mixed, runJob] at h
    cases hl : sceneLoop
        (resolveMixedScene env true filter_vertical max_search_results)
        env.tts true skip_unresolved scenes initLoopState with
    | error e => rw [hl] at h; simp at h
    | ok st =>
      simp only [hl] at h
      have hst := sceneLoop_nodup
        (resolveMixedScene env true filter_vertical max_search_results)
        env.tts skip_unresolved
        (fun used s meth fn hok =>
          resolve_avoid_not_mem env filter_vertical max_search_results
            used s meth fn (.inr hok))
        scenes initLoopState st rfl List.nodup_nil hl
      by_cases hempty : st.video_infos.isEmpty = true
      · rw [if_pos hempty] at h; simp at h
      · rw [if_neg (by simpa using hempty)] at h
        simp only [Except.ok.injEq] at h
        rw [← h]
        exact hst.1 ▸ hst.2

/-- An environment whose (single) search result list holds two eligible
candidates, so that duplicate avoidance has an alternative to fall back
to. -/
def envC5 : Env :=
  { search := fun _ _ => [⟨some "a.mp4"⟩, ⟨some "b.mp4"⟩],
    fileExists := fun _ => true,
    dims := fun _ => some (1920, 1080),
    tts := fun subtitle _ => subtitle ++ ".mp3" }

/-- Two script-search scenes issuing the same query. -/
def scenesC5 : List FlexScene :=
  [{ scene := 1, subtitle := "s1", script := some "q" },
   { scene := 2, subtitle := "s2", script := some "q" }]

/-- The expected output of running `scenesC5` with duplicate avoidance: the
second scene falls through to the second-ranked candidate. -/
def outC5 : JobOutput :=
  { video_infos :=
      [⟨"a.mp4", "s1.mp3", "s1", 1, .script_search⟩,
       ⟨"b.mp4", "s2.mp3", "s2", 2, .script_search⟩],
    videos_used := some ["a.mp4", "b.mp4"],
    skipped_scenes := none }

theorem c5_no_duplicate_assets_witness :
    edit_video_flexible envC5 true false 10 false scenesC5 = .ok outC5 ∧
    (outC5.video_infos.map (·.file_name)).Nodup :=
  ⟨rfl, (c5_no_duplicate_assets envC5 false 10 false scenesC5 outC5).1 rfl⟩

/-! ## C8: the skip-unresolvable-scenes policy -/

/-- With `skip_unresolved = true` the scene loop never fails. -/
theorem sceneLoop_skip_total (res : Resolver) (tts : String → String → String)
    (a : Bool) : ∀ (scenes : List FlexScene) (st : LoopState),
    ∃ st', sceneLoop res tts a true scenes st = .ok st' := by
  intro scenes
  induction scenes with
  | nil => intro st; exact ⟨st, rfl⟩
  | cons s rest ih =>
    intro st
    simp only [sceneLoop]
    cases hr : res st.used_videos s with
    | ok p =>
      obtain ⟨meth, fn⟩ := p
      simp only [hr]
      exact ih _
    | error p =>
      obtain ⟨meth, e⟩ := p
      simp only [hr, eq_self_iff_true, if_true]
      exact ih _

/-- Every scene lands in exactly one of the two buckets: the loop increases
`video_infos.length + skipped_scenes.length` by exactly the number of scenes
processed. -/
theorem sceneLoop_count (res : Resolver) (tts : String → String → String)
    (a skipU : Bool) : ∀ (scenes : List FlexScene) (st st' : LoopState),
    sceneLoop res tts a skipU scenes st = .ok st' →
    st'.video_infos.length + st'.skipped_scenes.length =
      st.video_infos.length + st.skipped_scenes.length + scenes.length := by
  intro scenes
  induction scenes with
  | nil =>
    intro st st' h
    simp only [sceneLoop, Except.ok.injEq] at h
    subst h; simp
  | cons s rest ih =>
    intro st st' h
    simp only [sceneLoop] at h
    cases hr : res st.used_videos s with
    | ok p =>
      obtain ⟨meth, fn⟩ := p
      simp only [hr] at h
      have hc := ih _ st' h
      simp only [List.length_append, List.length_cons, List.length_nil] at hc ⊢
      omega
    | error p =>
      obtain ⟨meth, e⟩ := p
      simp only [hr] at h
      cases skipU with
      | true =>
        simp only [eq_self_iff_true, if_true] at h
        have hc := ih _ st' h
        simp only [List.length_append, List.length_cons, List.length_nil] at hc ⊢
        omega
      | false => simp at h

/-- Every skipped entry produced by the loop carries the index of one of the
processed scenes. -/
theorem sceneLoop_skipped_mem (res : Resolver) (tts : String → String → String)
    (a skipU : Bool) : ∀ (scenes : List FlexScene) (st st' : LoopState),
    sceneLoop res tts a skipU scenes st = .ok st' →
    ∀ en ∈ st'.skipped_scenes,
      en ∈ st.skipped_scenes ∨ ∃ s ∈ scenes, en.scene = s.scene := by
  intro scenes
  induction scenes with
  | nil =>
    intro st st' h en hen
    simp only [sceneLoop, Except.ok.injEq] at h
    subst h
    exact .inl hen
  | cons s rest ih =>
    intro st st' h en hen
    simp only [sceneLoop] at h
    cases hr : res st.used_videos s with
    | ok p =>
      obtain ⟨meth, fn⟩ := p
      simp only [hr] at h
      rcases ih _ st' h en hen with hmem | ⟨s0, hs0, hsc⟩
      · exact .inl hmem
      · exact .inr ⟨s0, List.mem_cons_of_mem _ hs0, hsc⟩
    | error p =>
      obtain ⟨meth, e⟩ := p
      simp only [hr] at h
      cases skipU with
      | true =>
        simp only [eq_self_iff_true, if_true] at h
        rcases ih _ st' h en hen with hmem | ⟨s0, hs0, hsc⟩
        · rcases List.mem_append.mp hmem with hmem' | hmem'
          · exact .inl hmem'
          · have : en = ⟨s.scene, e, meth⟩ := by simpa using hmem'
            exact .inr ⟨s, List.mem_cons_self _ _, by rw [this]⟩
        · exact .inr ⟨s0, List.mem_cons_of_mem _ hs0, hsc⟩
      | false => simp at h

/-- With `skip_unresolved = false` a loop failure carries the per-scene
message of one of the processed scenes. -/
theorem sceneLoop_error_msg (res : Resolver) (tts : String → String → String)
    (a : Bool) : ∀ (scenes : List FlexScene) (st : LoopState) (msg : String),
    sceneLoop res tts a false scenes st = .error msg →
    ∃ s ∈ scenes, ∃ e, msg = sceneFailMsg s.scene e := by
  intro scenes
  induction scenes with
  | nil => intro st msg h; simp [sceneLoop] at h
  | cons s rest ih =>
    intro st msg h
    simp only [sceneLoop] at h
    cases hr : res st.used_videos s with
    | ok p =>
      obtain ⟨meth, fn⟩ := p
      simp only [hr] at h
      obtain ⟨s0, hs0, e0, he0⟩ := ih _ msg h
      exact ⟨s0, List.mem_cons_of_mem _ hs0, e0, he0⟩
    | error p =>
      obtain ⟨meth, e⟩ := p
      simp only [hr, Bool.false_eq_true, if_false, Except.error.injEq] at h
      exact ⟨s, List.mem_cons_self _ _, e, h.symm⟩

/-- Up to the first failing scene, the `skip_unresolved = true` and `= false`
runs coincide: either the skip run skipped nothing and the strict run
returns the same state, or the strict run fails. -/
theorem sceneLoop_skip_vs_fail (res : Resolver) (tts : String → String → String)
    (a : Bool) : ∀ (scenes : List FlexScene) (st st' : LoopState),
    sceneLoop res tts a true scenes st = .ok st' →
    (st'.skipped_scenes = st.skipped_scenes ∧
      sceneLoop res tts a false scenes st = .ok st') ∨
    (∃ msg, sceneLoop res tts a false scenes st = .error msg) := by
  intro scenes
  induction scenes with
  | nil =>
    intro st st' h
    simp only [sceneLoop, Except.ok.injEq] at h
    subst h
    exact .inl ⟨rfl, rfl⟩
  | cons s rest ih =>
    intro st st' h
    simp only [sceneLoop] at h
    cases hr : res st.used_videos s with
    | ok p =>
      obtain ⟨meth, fn⟩ := p
      simp only [hr] at h
      rcases ih _ st' h with ⟨hs, hrun⟩ | ⟨msg, hrun⟩
      · refine .inl ⟨hs, ?_⟩
        simp only [sceneLoop, hr]
        exact hrun
      · refine .inr ⟨msg, ?_⟩
        simp only [sceneLoop, hr]
        exact hrun
    | error p =>
      obtain ⟨meth, e⟩ := p
      refine .inr ⟨sceneFailMsg s.scene e, ?_⟩
      simp only [sceneLoop, hr, Bool.false_eq_true, if_false]

/-- The skip policy, stated for an arbitrary per-scene resolver and the
shared handler tail `runJob`. -/
theorem runJob_skip_policy (res : Resolver) (tts : String → String → String)
    (a : Bool) (scenes : List FlexScene) :
    (∃ st, sceneLoop res tts a true scenes initLoopState = .ok st ∧
      st.video_infos.length + st.skipped_scenes.length = scenes.length ∧
      (∀ en ∈ st.skipped_scenes, ∃ s ∈ scenes, en.scene = s.scene) ∧
      (st.video_infos ≠ [] → runJob res tts a true scenes = .ok
        ⟨st.video_infos, if a then some st.used_videos else none,
         if st.skipped_scenes.isEmpty then none
         else some st.skipped_scenes⟩) ∧
      (st.skipped_scenes ≠ [] →
        ∃ msg, runJob res tts a false scenes = .error msg)) ∧
    (∀ msg, sceneLoop res tts a false scenes initLoopState = .error msg →
      runJob res tts a false scenes = .error msg ∧
      ∃ s ∈ scenes, ∃ e, msg = sceneFailMsg s.scene e) := by
  constructor
  · obtain ⟨st, hst⟩ := sceneLoop_skip_total res tts a scenes initLoopState
    refine ⟨st, hst, ?_, ?_, ?_, ?_⟩
    · simpa [initLoopState] using
        sceneLoop_count res tts a true scenes initLoopState st hst
    · intro en hen
      rcases sceneLoop_skipped_mem res tts a true scenes initLoopState st hst
          en hen with hmem | hs
      · simp [initLoopState] at hmem
      · exact hs
    · intro hne
      simp only [runJob, hst]
      rw [if_neg (by simpa [List.isEmpty_iff] using hne)]
    · intro hne
      rcases sceneLoop_skip_vs_fail res tts a scenes initLoopState st hst with
        ⟨hs, _⟩ | ⟨msg, hrun⟩
      · exact absurd (by simpa [initLoopState] using hs) hne
      · exact ⟨msg, by rw [runJob, hrun]⟩
  · intro msg h
    refine ⟨by rw [runJob, h], ?_⟩
    exact sceneLoop_error_msg res tts a scenes initLoopState msg h

/-- **C8**: for every job, on either handler: with
`skip_unresolved = true` the scene loop always completes, every scene lands
either in `video_infos` or in `skipped_scenes` (the latter recording the
scene's index and reason), and — provided at least one scene survived — the
job completes with exactly the surviving scenes in its output; if any scene
was skipped, the same job run with `skip_unresolved = false` fails instead.
With `skip_unresolved = false`, a loop failure makes the whole job fail with
a per-scene error message and no output is produced. -/
theorem c8_skip_policy (env : Env) (a f : Bool) (m : Nat)
    (scenes : List FlexScene) :
    ((∃ st, sceneLoop (resolveFlexScene env a f m) env.tts a true scenes
          initLoopState = .ok st ∧
      st.video_infos.length + st.skipped_scenes.length = scenes.length ∧
      (∀ en ∈ st.skipped_scenes, ∃ s ∈ scenes, en.scene = s.scene) ∧
      (st.video_infos ≠ [] → edit_video_flexible env a f m true scenes = .ok
        ⟨st.video_infos, if a then some st.used_videos else none,
         if st.skipped_scenes.isEmpty then none
         else some st.skipped_scenes⟩) ∧
      (st.skipped_scenes ≠ [] →
        ∃ msg, edit_video_flexible env a f m false scenes = .error msg)) ∧
    (∀ msg, sceneLoop (resolveFlexScene env a f m) env.tts a false scenes
          initLoopState = .error msg →
      edit_video_flexible env a f m false scenes = .error msg ∧
      ∃ s ∈ scenes, ∃ e, msg = sceneFailMsg s.scene e)) ∧
    ((∃ st, sceneLoop (resolveMixedScene env a f m) env.tts a true scenes
          initLoopState = .ok st ∧
      st.video_infos.length + st.skipped_scenes.length = scenes.length ∧
      (∀ en ∈ st.skipped_scenes, ∃ s ∈ scenes, en.scene = s.scene) ∧
      (st.video_infos ≠ [] → async_edit_video_mixed env a f m true scenes = .ok
        ⟨st.video_infos, if a then some st.used_videos else none,
         if st.skipped_scenes.isEmpty then none
         else some st.skipped_scenes⟩) ∧
      (st.skipped_scenes ≠ [] →
        ∃ msg, async_edit_video_mixed env a f m false scenes = .error msg)) ∧
    (∀ msg, sceneLoop (resolveMixedScene env a f m) env.tts a false scenes
          initLoopState = .error msg →
      async_edit_video_mixed env a f m false scenes = .error msg ∧
      ∃ s ∈ scenes, ∃ e, msg = sceneFailMsg s.scene e)) :=
  ⟨runJob_skip_policy (resolveFlexScene env a f m) env.tts a scenes,
   runJob_skip_policy (resolveMixedScene env a f m) env.tts a scenes⟩

/-- An environment in which the query `"bad"` only matches a missing file
while every other query matches two existing assets. -/
def envC8 : Env :=
  { search := fun q _ =>
      if q = "bad" then [⟨some "missing.mp4"⟩]
      else [⟨some "a.mp4"⟩, ⟨some "b.mp4"⟩],
    fileExists := fun p => p != uploadsPath "missing.mp4",
    dims := fun _ => some (1920, 1080),
    tts := fun subtitle _ => subtitle ++ ".mp3" }

/-- Three script-search scenes of which the second cannot be resolved. -/
def scenesC8 : List FlexScene :=
  [{ scene := 1, subtitle := "s1", script := some "q1" },
   { scene := 2, subtitle := "s2", script := some "bad" },
   { scene := 3, subtitle := "s3", script := some "q3" }]

/-- The loop state after running `scenesC8` with `skip_unresolved = true`:
scenes 1 and 3 resolved, scene 2 recorded as skipped. -/
def stC8 : LoopState :=
  { video_infos :=
      [⟨"a.mp4", "s1.mp3", "s1", 1, .script_search⟩,
       ⟨"a.mp4", "s3.mp3", "s3", 3, .script_search⟩],
    used_videos := [],
    skipped_scenes := [⟨2, .searchFailed .noEligible, some .script_search⟩] }

theorem c8_skip_policy_witness :
    edit_video_flexible envC8 false false 10 true scenesC8 =
      .ok ⟨stC8.video_infos, none, some stC8.skipped_scenes⟩ ∧
    stC8.video_infos.length + stC8.skipped_scenes.length = 3 ∧
    edit_video_flexible envC8 false false 10 false scenesC8 =
      .error (sceneFailMsg 2 (.searchFailed .noEligible)) := by
  obtain ⟨⟨st, hst, hcount, hmem, hok, hfail⟩, herr⟩ :=
    (c8_skip_policy envC8 false false 10 scenesC8).1
  have hst2 : st = stC8 := by
    have h2 : (Except.ok st : Except String LoopState) = Except.ok stC8 :=
      hst.symm.trans rfl
    simpa using h2
  subst hst2
  refine ⟨?_, ?_, ?_⟩
  · exact hok (by decide)
  · simpa [scenesC8] using hcount
  · exact (herr (sceneFailMsg 2 (.searchFailed .noEligible)) rfl).1

/-! ## Composition engine (`src/lib/edit.py`) -/

/-- `kill_ffmpeg_processes` (lib/edit.py lines 22-33): scan the process
table (pid, name) and kill every process whose name is non-empty and
contains `"ffmpeg"` case-insensitively; returns the killed pids. -/
def kill_ffmpeg_processes (procs : List (Nat × String)) : List Nat :=
  (procs.filter (fun pr =>
    !pr.2.isEmpty && decide ((pr.2.toLower.splitOn "ffmpeg").length > 1))).map
    (·.1)

/-- What loading a video asset with `VideoFileClip` yields: its duration in
seconds, its `(width, height)` size, and whether it carries an audio track.
The duration of a clip's own audio track equals the clip duration. -/
structure VideoMeta where
  duration : ℚ
  size : Nat × Nat
  hasAudio : Bool
deriving DecidableEq, Repr

/-- One entry of the `video_infos` list consumed by
`create_composite_video`: the keys `path`, `audio_path`, `text` and
`audio_duration`, each possibly absent. -/
structure VideoInfoIn where
  path : Option String := none
  audio_path : Option String := none
  text : String := ""
  audio_duration : Option ℚ := none
deriving DecidableEq, Repr

/-- The external effects of the composition engine: clip loading
(`VideoFileClip`, failure = `none`), `os.path.exists` on audio paths,
audio loading (`AudioFileClip`, returning the duration), `TextClip`
construction success, the final `write_videofile` outcome, and the process
table scanned by the cleanup phase. -/
structure ComposeEnv where
  loadVideo : String → Option VideoMeta
  audioFileExists : String → Bool
  loadAudio : String → Option ℚ
  textClipOk : String → Bool
  writeOk : Bool
  procs : List (Nat × String)

/-- The duration adjustment applied to a scene's video clip
(lib/edit.py lines 162-178). -/
inductive Adjust
  | trim (start_time end_time : ℚ)
  | speed (factor : ℚ)
  | unchanged
deriving DecidableEq, Repr

/-- Lines 162-178: `if audio_duration and video_clip.duration >
audio_duration` center-trim, `elif audio_duration and video_clip.duration <
audio_duration` scale the speed by `videoDuration / audio_duration`, else
leave the clip unchanged.  Python float truthiness makes `audio_duration = 0`
fall into the unchanged branch.  Only the video clip is transformed; the
audio track is attached as loaded (line 182). -/
def adjustClip (videoDuration : ℚ) : Option ℚ → Adjust
  | some audio_duration =>
    if audio_duration ≠ 0 ∧ videoDuration > audio_duration then
      .trim ((videoDuration - audio_duration) / 2)
        ((videoDuration - audio_duration) / 2 + audio_duration)
    else if audio_duration ≠ 0 ∧ videoDuration < audio_duration then
      .speed (videoDuration / audio_duration)
    else .unchanged
  | none => .unchanged

/-- The duration of the adjusted clip: `subclipped(s, e)` lasts `e - s`,
`with_speed_scaled(factor)` lasts `duration / factor`. -/
def adjustedDuration (videoDuration : ℚ) : Adjust → ℚ
  | .trim start_time end_time => end_time - start_time
  | .speed factor => videoDuration / factor
  | .unchanged => videoDuration

/-- Line 103 of `lib/edit.py`: `base_resolution = (1920, 1080)` — an initial
*value*, not `None`; the `if base_resolution is None` update at lines 135-137
can therefore never fire. -/
def base_resolution : Nat × Nat := (1920, 1080)

/-- The reference-resolution update of lines 135-137 (`if base_resolution is
None: base_resolution = video_clip.size`), dead under the initialisation
above. -/
def stepBaseRes (base : Option (Nat × Nat)) (clipSize : Nat × Nat) :
    Option (Nat × Nat) :=
  match base with
  | none => some clipSize
  | some b => some b

/-- What the per-scene loop body did to one surviving clip: source duration
and size, the audio duration it reconciled against, the adjustment applied,
the resulting duration, the final size after normalisation, and whether it
was resized / subtitled. -/
structure ProcessedClip where
  srcDuration : ℚ
  srcSize : Nat × Nat
  audioDuration : Option ℚ
  hasAudioClip : Bool
  adjust : Adjust
  duration : ℚ
  size : Nat × Nat
  resized : Bool
  subtitled : Bool
deriving DecidableEq, Repr

/-- The state threaded through the composition loop: the id generator for
clip objects, the `all_clips` tracking list (creation order) and the
`final_clips` list. -/
structure CState where
  nextId : Nat
  all_clips : List Nat
  final_clips : List ProcessedClip
deriving DecidableEq, Repr

/-- One iteration of the per-scene loop of `create_composite_video`
(lib/edit.py lines 108-217).  Clip objects are abstracted by fresh ids
appended to `all_clips` exactly where the source appends them: the loaded
video, an externally loaded audio clip, the trimmed/speed-scaled derivative,
the resized derivative, and the text and composite clips of a subtitle.
`with_audio` (line 182) returns an untracked copy, hence no id.  A missing
`path` key or a failed video load skips the scene (`continue`). -/
def processScene (env : ComposeEnv) (st : CState) (info : VideoInfoIn) :
    CState :=
  match info.path with
  | none => st
  | some video_path =>
    match env.loadVideo video_path with
    | none => st
    | some vm =>
      let st1 : CState :=
        { st with nextId := st.nextId + 1,
                  all_clips := st.all_clips ++ [st.nextId] }
      let audioStep : CState × Option ℚ × Bool :=
        match info.audio_path with
        | some ap =>
          if !ap.isEmpty && env.audioFileExists ap then
            match env.loadAudio ap with
            | some d =>
              ({ st1 with nextId := st1.nextId + 1,
                          all_clips := st1.all_clips ++ [st1.nextId] },
               some d, true)
            | none => (st1, some vm.duration, vm.hasAudio)
          else
            match info.audio_duration with
            | some d => (st1, some d, vm.hasAudio)
            | none => (st1, some vm.duration, vm.hasAudio)
        | none =>
          match info.audio_duration with
          | some d => (st1, some d, vm.hasAudio)
          | none => (st1, some vm.duration, vm.hasAudio)
      let st2 := audioStep.1
      let audioDur := audioStep.2.1
      let adj := adjustClip vm.duration audioDur
      let st3 : CState :=
        match adj with
        | .unchanged => st2
        | _ => { st2 with nextId := st2.nextId + 1,
                          all_clips := st2.all_clips ++ [st2.nextId] }
      let needResize := decide (vm.size ≠ base_resolution)
      let st4 : CState :=
        if needResize then
          { st3 with nextId := st3.nextId + 1,
                     all_clips := st3.all_clips ++ [st3.nextId] }
        else st3
      let subtitled := !info.text.isEmpty && env.textClipOk info.text
      let st5 : CState :=
        if subtitled then
          { st4 with nextId := st4.nextId + 2,
                     all_clips := st4.all_clips ++ [st4.nextId, st4.nextId + 1] }
        else st4
      { nextId := st5.nextId, all_clips := st5.all_clips,
        final_clips := st.final_clips ++
          [{ srcDuration := vm.duration, srcSize := vm.size,
             audioDuration := audioDur, hasAudioClip := audioStep.2.2,
             adjust := adj, duration := adjustedDuration vm.duration adj,
             size := if needResize then base_resolution else vm.size,
             resized := needResize, subtitled := subtitled }] }

/-- One event of the `finally` phase of `create_composite_video`. -/
inductive CleanupEvent
  | closeClip (id : Nat)
  | gcCollect
  | killFfmpeg (killed : List Nat)
deriving DecidableEq, Repr

/-- The failures of `create_composite_video`: the empty-input `ValueError`
(line 89, raised before the `try`), the no-valid-clips `ValueError`
(line 221) and a failing `write_videofile`. -/
inductive ComposeError
  | noScenes
  | noValidClips
  | writeFailed
deriving DecidableEq, Repr

/-- The observable outcome of one `create_composite_video` invocation:
the returned path or raised error, the tracking list `all_clips`, the
surviving per-scene clips, and the sequence of cleanup events that ran. -/
structure ComposeResult where
  result : Except ComposeError String
  all_clips : List Nat
  final_clips : List ProcessedClip
  cleanup : List CleanupEvent
deriving Repr

/-- `create_composite_video` (lib/edit.py lines 66-266).  An empty input
raises at line 89, *before* the `try`, so no cleanup runs on that path
(`cleanup = []`).  Otherwise the per-scene loop runs, the concatenated final
video is tracked as one more clip when any scene survived, and the `finally`
block (lines 248-266) closes every tracked clip in reverse creation order,
then forces a garbage collection, then kills lingering ffmpeg processes —
on success, on the no-valid-clips error and on a write failure alike. -/
def create_composite_video (env : ComposeEnv) (video_infos : List VideoInfoIn)
    (output_path : String) : ComposeResult :=
  if video_infos.isEmpty then
    { result := .error .noScenes, all_clips := [], final_clips := [],
      cleanup := [] }
  else
    let st := video_infos.foldl (processScene env) ⟨0, [], []⟩
    let outcome : List Nat × Except ComposeError String :=
      if st.final_clips.isEmpty then (st.all_clips, .error .noValidClips)
      else
        let tracked := st.all_clips ++ [st.nextId]
        if env.writeOk then (tracked, .ok output_path)
        else (tracked, .error .writeFailed)
    { result := outcome.2, all_clips := outcome.1,
      final_clips := st.final_clips,
      cleanup := outcome.1.reverse.map .closeClip ++
        [.gcCollect, .killFfmpeg (kill_ffmpeg_processes env.procs)] }

/-! ## C4: duration reconciliation -/

/-- **C4**: for a scene with video duration `V > 0` and audio duration
`A > 0`: if `V > A` the clip is center-trimmed to the sub-interval
`[(V-A)/2, (V-A)/2 + A]`, whose duration is `A`; if `V < A` the video is
uniformly speed-scaled by `V / A` (only the video is transformed — the
`Adjust` type has no audio operation and the loaded audio is attached
unchanged), and the scaled duration `V / (V/A)` equals `A`; if `V = A` the
clip is unchanged, with duration `A`. -/
theorem c4_duration_reconciliation (v a : ℚ) (hv : 0 < v) (ha : 0 < a) :
    (v > a → adjustClip v (some a) = .trim ((v - a) / 2) ((v - a) / 2 + a) ∧
      adjustedDuration v (adjustClip v (some a)) = a) ∧
    (v < a → adjustClip v (some a) = .speed (v / a) ∧
      adjustedDuration v (adjustClip v (some a)) = a) ∧
    (v = a → adjustClip v (some a) = .unchanged ∧
      adjustedDuration v (adjustClip v (some a)) = a) := by
  refine ⟨?_, ?_, ?_⟩
  · intro hgt
    have hc : adjustClip v (some a) =
        .trim ((v - a) / 2) ((v - a) / 2 + a) := by
      simp [adjustClip, ha.ne', hgt]
    refine ⟨hc, ?_⟩
    rw [hc, adjustedDuration]
    ring
  · intro hlt
    have hc : adjustClip v (some a) = .speed (v / a) := by
      simp [adjustClip, ha.ne', hlt, not_lt_of_gt hlt]
    refine ⟨hc, ?_⟩
    rw [hc, adjustedDuration]
    rw [div_div_eq_mul_div, mul_comm, mul_div_assoc, div_self hv.ne',
      mul_one]
  · intro heq
    have hc : adjustClip v (some a) = .unchanged := by
      simp [adjustClip, heq]
    exact ⟨hc, by rw [hc, adjustedDuration, heq]⟩

theorem c4_duration_reconciliation_witness :
    adjustClip 5 (some 3) = .trim 1 4 ∧
    adjustedDuration 5 (adjustClip 5 (some 3)) = 3 ∧
    adjustedDuration 2 (adjustClip 2 (some 4)) = 4 ∧
    adjustClip 3 (some 3) = .unchanged := by
  have h1 := (c4_duration_reconciliation 5 3 (by norm_num) (by norm_num)).1
    (by norm_num)
  have h2 := (c4_duration_reconciliation 2 4 (by norm_num) (by norm_num)).2.1
    (by norm_num)
  have h3 := (c4_duration_reconciliation 3 3 (by norm_num) (by norm_num)).2.2
    rfl
  refine ⟨?_, h1.2, h2.2, h3.1⟩
  rw [h1.1]
  simp only [Adjust.trim.injEq]
  norm_num

/-! ## C2: the reference resolution -/

/-- Every clip surviving the loop has been normalised to the constant
`base_resolution`, resized exactly when its source size differed. -/
theorem processScene_final (env : ComposeEnv) (st : CState)
    (info : VideoInfoIn) (pc : ProcessedClip)
    (h : pc ∈ (processScene env st info).final_clips) :
    pc ∈ st.final_clips ∨
      (pc.size = base_resolution ∧
       pc.resized = decide (pc.srcSize ≠ base_resolution)) := by
  cases hp : info.path with
  | none =>
    simp only [processScene, hp] at h
    exact .inl h
  | some video_path =>
    simp only [processScene, hp] at h
    cases hl : env.loadVideo video_path with
    | none =>
      simp only [hl] at h
      exact .inl h
    | some vm =>
      simp only [hl] at h
      simp only [List.mem_append, List.mem_singleton] at h
      rcases h with h | h
      · exact .inl h
      · subst h
        by_cases hsz : vm.size = base_resolution
        · simp [hsz]
        · simp [hsz]

/-- Extension of `processScene_final` to the whole loop. -/
theorem processAll_final (env : ComposeEnv) :
    ∀ (video_infos : List VideoInfoIn) (st : CState) (pc : ProcessedClip),
    pc ∈ (video_infos.foldl (processScene env) st).final_clips →
    pc ∈ st.final_clips ∨
      (pc.size = base_resolution ∧
       pc.resized = decide (pc.srcSize ≠ base_resolution)) := by
  intro video_infos
  induction video_infos with
  | nil => intro st pc h; exact .inl h
  | cons i rest ih =>
    intro st pc h
    rcases ih (processScene env st i) pc h with hm | hp
    · exact processScene_final env st i pc hm
    · exact .inr hp

/-- An environment holding one loadable 1280×720 video. -/
def envC2 : ComposeEnv :=
  { loadVideo := fun p =>
      if p = "uploads/a.mp4" then some ⟨5, (1280, 720), false⟩ else none,
    audioFileExists := fun _ => false,
    loadAudio := fun _ => none,
    textClipOk := fun _ => true,
    writeOk := true,
    procs := [] }

/-- A single-scene input whose only asset is the 1280×720 video. -/
def infosC2 : List VideoInfoIn := [{ path := some "uploads/a.mp4" }]

/-- The processed clip produced for that scene: resized to 1920×1080. -/
def pcC2 : ProcessedClip :=
  { srcDuration := 5, srcSize := (1280, 720), audioDuration := some 5,
    hasAudioClip := false, adjust := .unchanged, duration := 5,
    size := (1920, 1080), resized := true, subtitled := false }

/-- **C2, counterexample**: the claim says the reference resolution equals
the first successfully loaded asset's dimensions — which would leave a run
whose first (and only) asset is 1280×720 un-resized.  In the code
`base_resolution` is initialised to the constant `(1920, 1080)` (the
first-asset branch is dead), so that very first clip *is* resized, to
1920×1080 ≠ 1280×720. -/
theorem c2_counterexample :
    (create_composite_video envC2 infosC2 "out.mp4").final_clips = [pcC2] ∧
    pcC2.srcSize = (1280, 720) ∧ pcC2.resized = true ∧
    pcC2.size = (1920, 1080) ∧ (1280, 720) ≠ (1920, 1080) ∧
    stepBaseRes (some base_resolution) (1280, 720) = some (1920, 1080) :=
  ⟨rfl, rfl, rfl, rfl, by decide, rfl⟩

/-- **C2, amended**: the reference resolution is the constant 1920×1080,
fixed for every composition run independently of the loaded assets (the
first-asset branch `stepBaseRes` never fires because `base_resolution` is
never `None`); every clip whose size differs from it is resized to it, so
every surviving clip leaves the loop at 1920×1080. -/
theorem c2_amended_fixed_reference (env : ComposeEnv)
    (video_infos : List VideoInfoIn) (output_path : String)
    (pc : ProcessedClip)
    (h : pc ∈ (create_composite_video env video_infos output_path).final_clips) :
    pc.size = base_resolution ∧
    pc.resized = decide (pc.srcSize ≠ base_resolution) ∧
    base_resolution = (1920, 1080) ∧
    (∀ sz, stepBaseRes (some base_resolution) sz = some base_resolution) := by
  rw [create_composite_video] at h
  by_cases he : video_infos.isEmpty = true
  · rw [if_pos he] at h
    simp at h
  · rw [if_neg he] at h
    simp only [] at h
    rcases processAll_final env video_infos ⟨0, [], []⟩ pc h with hm | hp
    · simp at hm
    · exact ⟨hp.1, hp.2, rfl, fun sz => rfl⟩

theorem c2_amended_fixed_reference_witness :
    pcC2.size = base_resolution ∧
    pcC2.resized = decide (pcC2.srcSize ≠ base_resolution) := by
  have h := c2_amended_fixed_reference envC2 infosC2 "out.mp4" pcC2 (by decide)
  exact ⟨h.1, h.2.1⟩

/-! ## C3: the cleanup phase -/

/-- **C3, counterexample**: the claim says the cleanup phase runs on *every*
invocation, also when an exception propagates.  The empty-input `ValueError`
(line 89) is raised before the `try`, so on that invocation the exception
propagates and no cleanup event — no close, no gc pass, no ffmpeg kill —
runs at all. -/
theorem c3_counterexample :
    (create_composite_video envC2 [] "out.mp4").result = .error .noScenes ∧
    (create_composite_video envC2 [] "out.mp4").cleanup = [] :=
  ⟨rfl, rfl⟩

/-- **C3, amended**: for every invocation with a *non-empty* input list —
whether it returns the output path, fails with the no-valid-clips error or
fails writing — the cleanup phase runs: it closes every tracked clip in
reverse creation order, then forces a garbage-collection pass, then kills
the ffmpeg processes found by name in the process table; every tracked clip
gets a close event. -/
theorem c3_amended_cleanup_on_nonempty (env : ComposeEnv)
    (video_infos : List VideoInfoIn) (output_path : String)
    (h : video_infos ≠ []) :
    (create_composite_video env video_infos output_path).cleanup =
      ((create_composite_video env video_infos output_path).all_clips.reverse.map
        .closeClip) ++
      [.gcCollect,
       .killFfmpeg (kill_ffmpeg_processes env.procs)] ∧
    ∀ c ∈ (create_composite_video env video_infos output_path).all_clips,
      CleanupEvent.closeClip c ∈
        (create_composite_video env video_infos output_path).cleanup := by
  have he : video_infos.isEmpty = false := by
    simpa [List.isEmpty_iff] using h
  rw [create_composite_video]
  rw [if_neg (by simp [he])]
  refine ⟨rfl, ?_⟩
  intro c hc
  refine List.mem_append_left _ ?_
  exact List.mem_map.mpr ⟨c, List.mem_reverse.mpr hc, rfl⟩

theorem c3_amended_cleanup_on_nonempty_witness :
    (create_composite_video envC2 infosC2 "out.mp4").cleanup =
      [.closeClip 2, .closeClip 1, .closeClip 0, .gcCollect,
       .killFfmpeg []] ∧
    CleanupEvent.closeClip 0 ∈
      (create_composite_video envC2 infosC2 "out.mp4").cleanup := by
  have h := c3_amended_cleanup_on_nonempty envC2 infosC2 "out.mp4" (by decide)
  exact ⟨rfl, h.2 0 (by decide)⟩

end Backend
